import Mathlib

/-!
Verification of the NUAA course-enrollment script (`xuanke_final.py`).

The development shallowly embeds the script's core functions:
`is_login_bounce`, `smart_read` (with its inner `_maybe_decompress`),
the catalog parsing in `course_info` (regex extraction of ids and names),
the selection-token mapper in `course_info`, the submission-form builder
and the pacing/gating logic of `grab_courses`.

Bytes are `List Nat` (each entry a byte value), wall-clock and monotonic
instants are `ℚ` (seconds).  Python operations that can raise are modelled
as `Option`-valued oracles; a `try/except` that swallows an exception
becomes `Option.getD`.
-/

/-- The single-quote character, written via its code point. -/
def squote : Char := Char.ofNat 39

/-- The single-quote character as a one-character string. -/
def squoteStr : String := String.mk [squote]

/-- Does `hay` start with `needle`?  (Char-list version of `str.startswith`.) -/
def startsWithChars : List Char → List Char → Bool
  | _, [] => true
  | [], _ :: _ => false
  | a :: as, b :: bs => a == b && startsWithChars as bs

/-- Does `needle` occur contiguously inside `hay`?  (Python's `needle in hay`.) -/
def occursIn : List Char → List Char → Bool
  | [], needle => needle.isEmpty
  | a :: rest, needle => startsWithChars (a :: rest) needle || occursIn rest needle

/-- Substring test on strings: Python's `needle in hay`. -/
def strContains (hay needle : String) : Bool := occursIn hay.data needle.data

/-- ASCII lower-casing, modelling `str.lower()` on the URLs involved. -/
def lowerStr (s : String) : String := String.mk (s.data.map Char.toLower)

/-- A `requests` response, as far as the script reads it.  `none` in `url`
or `text` models the attribute read raising an exception. -/
structure Resp where
  url : Option String
  text : Option String
  content : List Nat
  encoding : Option String
  apparent_encoding : Option String
  status_code : Nat

/-- The authentication-wall phrase looked for in response bodies. -/
def authPhrase : String := "统一身份认证"

/-- The authentication-service marker looked for in (lowercased) URLs. -/
def authMarker : String := "authserver"

/-- `is_login_bounce(resp)` from the script: the URL is lowercased (empty on
exception), the body text read (empty on exception), and the result is
"phrase in text or marker in url". -/
def is_login_bounce (r : Resp) : Bool :=
  strContains ((r.text).getD "") authPhrase
    || strContains (lowerStr ((r.url).getD "")) authMarker

/-- Is a byte a UTF-8 continuation byte? -/
def contByte (b : Nat) : Bool := 0x80 ≤ b && b ≤ 0xBF

/-- Allowed second byte of a three-byte UTF-8 sequence with lead `b`. -/
def utf8Cont3 (b b1 : Nat) : Bool :=
  if b = 0xE0 then 0xA0 ≤ b1 && b1 ≤ 0xBF
  else if b = 0xED then 0x80 ≤ b1 && b1 ≤ 0x9F
  else contByte b1

/-- Allowed second byte of a four-byte UTF-8 sequence with lead `b`. -/
def utf8Cont4 (b b1 : Nat) : Bool :=
  if b = 0xF0 then 0x90 ≤ b1 && b1 ≤ 0xBF
  else if b = 0xF4 then 0x80 ≤ b1 && b1 ≤ 0x8F
  else contByte b1

/-- Fuelled UTF-8 decoding that drops undecodable bytes, modelling
`bytes.decode("utf-8", errors="ignore")` (which is total). -/
def utf8Fuel : Nat → List Nat → List Char
  | 0, _ => []
  | _ + 1, [] => []
  | fuel + 1, b :: rest =>
    if b < 0x80 then Char.ofNat b :: utf8Fuel fuel rest
    else if 0xC2 ≤ b && b ≤ 0xDF then
      match rest with
      | b1 :: rest1 =>
        if contByte b1 then
          Char.ofNat ((b - 0xC0) * 0x40 + (b1 - 0x80)) :: utf8Fuel fuel rest1
        else utf8Fuel fuel rest
      | [] => []
    else if 0xE0 ≤ b && b ≤ 0xEF then
      match rest with
      | b1 :: b2 :: rest2 =>
        if utf8Cont3 b b1 && contByte b2 then
          Char.ofNat ((b - 0xE0) * 0x1000 + (b1 - 0x80) * 0x40 + (b2 - 0x80)) ::
            utf8Fuel fuel rest2
        else utf8Fuel fuel rest
      | _ => []
    else if 0xF0 ≤ b && b ≤ 0xF4 then
      match rest with
      | b1 :: b2 :: b3 :: rest3 =>
        if utf8Cont4 b b1 && contByte b2 && contByte b3 then
          Char.ofNat ((b - 0xF0) * 0x40000 + (b1 - 0x80) * 0x1000 +
              (b2 - 0x80) * 0x40 + (b3 - 0x80)) :: utf8Fuel fuel rest3
        else utf8Fuel fuel rest
      | _ => []
    else utf8Fuel fuel rest

/-- Total UTF-8 decoding with `errors="ignore"`. -/
def utf8DecodeIgnore (b : List Nat) : String := String.mk (utf8Fuel b.length b)

/-- `bytes.decode("latin1", errors="ignore")`: each byte is its own code point. -/
def latin1Decode (b : List Nat) : String :=
  String.mk (b.map (fun n => Char.ofNat (n % 256)))

/-- Oracles for the Python library calls `smart_read` makes.  `gz` and `zl`
model `gzip.decompress` / `zlib.decompress` (`none` = the call raised);
`gbDec` models the total `decode(enc, errors="ignore")` for the three
Chinese codecs; `lookupDecode` models `decode` for any other codec name
(`none` = `LookupError`, e.g. an invalid codec name). -/
structure DecodeEnv where
  gz : List Nat → Option (List Nat)
  zl : List Nat → Option (List Nat)
  gbDec : String → List Nat → String
  lookupDecode : String → List Nat → Option String

/-- `_maybe_decompress` inside `smart_read`: sniff the gzip magic pair or a
zlib header pair and attempt the corresponding decompression, keeping the
original bytes when the attempt fails; otherwise pass bytes through. -/
def maybe_decompress (gz zl : List Nat → Option (List Nat)) (b : List Nat) : List Nat :=
  match b with
  | b0 :: b1 :: _ =>
    if b0 = 0x1F ∧ b1 = 0x8B then (gz b).getD b
    else if b0 = 0x78 ∧ (b1 = 0x01 ∨ b1 = 0x5E ∨ b1 = 0x9C ∨ b1 = 0xDA) then (zl b).getD b
    else b
  | _ => b

/-- One `raw.decode(enc, errors="ignore")` attempt: the three codecs the
script can actually reach concretely behave per `utf8DecodeIgnore` /
`latin1Decode` / the total `gbDec` oracle; any other codec name goes
through `lookupDecode`, whose `none` models a raised `LookupError`. -/
def pyDecode (env : DecodeEnv) (enc : String) (b : List Nat) : Option String :=
  if enc = "utf-8" then some (utf8DecodeIgnore b)
  else if enc = "latin1" then some (latin1Decode b)
  else if enc = "gb18030" || enc = "gbk" || enc = "gb2312" then some (env.gbDec enc b)
  else env.lookupDecode enc b

/-- The `for enc in [...]` loop of `smart_read`: skip falsy entries, try
decoding, continue on exception, return `(text, enc)` on success. -/
def decodeLoop (env : DecodeEnv) (b : List Nat) : List (Option String) → Option (String × String)
  | [] => none
  | none :: rest => decodeLoop env b rest
  | some e :: rest =>
    if e = "" then decodeLoop env b rest
    else
      match pyDecode env e b with
      | some s => some (s, e)
      | none => decodeLoop env b rest

/-- `smart_read(resp)`: decompress defensively, then try the declared
encoding, the apparent encoding and the fixed fallback list in order,
finally falling back to UTF-8 with ignored errors. -/
def smart_read (env : DecodeEnv) (r : Resp) : String × String :=
  let raw := maybe_decompress env.gz env.zl r.content
  (decodeLoop env raw
      [r.encoding, r.apparent_encoding, some "utf-8", some "gb18030", some "gbk",
        some "gb2312", some "latin1"]).getD
    (utf8DecodeIgnore raw, "utf-8")

/-- Try to match the regex `id:(\d+),` at the head of the character list;
on success return the captured digit string and the rest after the comma. -/
def matchIdAt (cs : List Char) : Option (String × List Char) :=
  match cs with
  | 'i' :: 'd' :: ':' :: rest =>
    let ds := rest.takeWhile Char.isDigit
    match rest.dropWhile Char.isDigit with
    | c :: rest3 => if c = ',' ∧ ds ≠ [] then some (String.mk ds, rest3) else none
    | [] => none
  | _ => none

/-- Left-to-right non-overlapping scan for `id:(\d+),`, as `re.findall`
does: on a match continue after it, otherwise advance one character. -/
def findIdsFuel : Nat → List Char → List String
  | 0, _ => []
  | _ + 1, [] => []
  | fuel + 1, c :: rest =>
    match matchIdAt (c :: rest) with
    | some (s, rest3) => s :: findIdsFuel fuel rest3
    | none => findIdsFuel fuel rest

/-- `find_id.findall(text)` for `find_id = re.compile(r"id:(\d+),")`. -/
def idList (text : String) : List String := findIdsFuel text.data.length text.data

/-- Try to match `name:'([^']*)',` at the head of the character list,
returning the capture. -/
def matchNameAt (cs : List Char) : Option String :=
  match cs with
  | 'n' :: 'a' :: 'm' :: 'e' :: ':' :: q :: rest =>
    if q = squote then
      let inner := rest.takeWhile (fun c => c ≠ squote)
      match rest.dropWhile (fun c => c ≠ squote) with
      | _ :: c2 :: _ => if c2 = ',' then some (String.mk inner) else none
      | _ => none
    else none
  | _ => none

/-- First match of `name:'([^']*)',` in a chunk (`find_name.findall(item)[0]`),
scanning left to right. -/
def findFirstNameFuel : Nat → List Char → Option String
  | 0, _ => none
  | _ + 1, [] => none
  | fuel + 1, c :: rest =>
    match matchNameAt (c :: rest) with
    | some s => some s
    | none => findFirstNameFuel fuel rest

/-- First `name:'…',` capture inside one `code:`-delimited chunk. -/
def firstNameIn (s : String) : Option String := findFirstNameFuel s.data.length s.data

/-- The `for item in text.split("code:")` loop: take the first name of each
chunk in order and stop at the first chunk with no name match. -/
def nameListAux : List String → List String
  | [] => []
  | item :: rest =>
    match firstNameIn item with
    | some nm => nm :: nameListAux rest
    | none => []

/-- Fuelled splitting of a character list on a non-empty separator,
modelling Python's `str.split(sep)`: each non-overlapping occurrence of
`sep`, scanned left to right, delimits a chunk. -/
def splitSubFuel : Nat → List Char → List Char → List Char → List (List Char)
  | 0, _, acc, _ => [acc.reverse]
  | fuel + 1, cs, acc, sep =>
    if sep ≠ [] ∧ startsWithChars cs sep then
      acc.reverse :: splitSubFuel fuel (cs.drop sep.length) [] sep
    else
      match cs with
      | [] => [acc.reverse]
      | c :: rest => splitSubFuel fuel rest (c :: acc) sep

/-- Python's `text.split(sep)` for a non-empty separator. -/
def pySplit (s sep : String) : List String :=
  (splitSubFuel (s.data.length + 1) s.data [] sep.data).map String.mk

/-- `name_list` as built in `course_info`. -/
def nameList (text : String) : List String := nameListAux (pySplit text "code:")

/-- `n = min(len(id_list), len(name_list))` in `course_info`. -/
def entryCount (text : String) : Nat := min (idList text).length (nameList text).length

/-- The displayed catalog entries: for each index below `entryCount`, the
triple (index, id, name) printed by `course_info`. -/
def courseEntries (text : String) : List (Nat × String × String) :=
  (List.range (entryCount text)).map
    (fun i => (i, (idList text).getD i "", (nameList text).getD i ""))

/-- Python `str.isdigit()` restricted to ASCII digits: non-empty and all
characters are digits. -/
def pyIsDigit (s : String) : Bool := !s.isEmpty && s.data.all Char.isDigit

/-- `int(t)` for a digit string. -/
def digitsToNat (s : String) : Nat := s.data.foldl (fun a c => a * 10 + (c.toNat - 48)) 0

/-- The selection-token loop of `course_info`: skip non-numeric tokens,
resolve an in-range numeric token as a positional index into the displayed
entries, otherwise accept a token literally equal to a parsed course id,
otherwise skip. -/
def mapSelections : List String → List String → Nat → List String
  | [], _, _ => []
  | t :: ts, ids, n =>
    if !pyIsDigit t then mapSelections ts ids n
    else if digitsToNat t < n then ids.getD (digitsToNat t) "" :: mapSelections ts ids n
    else if ids.contains t then t :: mapSelections ts ids n
    else mapSelections ts ids n

/-- The catalog body used by the specification's parsing example, with the
quotes spelled via `squoteStr`. -/
def exampleBody : String :=
  "...id:1001,code:x name:" ++ squoteStr ++ "Math" ++ squoteStr ++
    ",id:1002,code:y name:" ++ squoteStr ++ "Physics" ++ squoteStr ++ ",..."

/-- One submission form, as built in `grab_courses`:
`{"optype": "true", "operator0": f"{cid}:true:0", "lesson0": cid}`. -/
structure SubmissionForm where
  optype : String
  operator0 : String
  lesson0 : String
deriving DecidableEq

/-- The form built for one course id. -/
def makeForm (cid : String) : SubmissionForm :=
  ⟨"true", cid ++ ":true:0", cid⟩

/-- `forms = [{...} for cid in lesson_ids]`. -/
def formsFor (lesson_ids : List String) : List SubmissionForm := lesson_ids.map makeForm

/-- `POST_MIN_GAP = 0.8` (seconds). -/
def POST_MIN_GAP : ℚ := 8 / 10

/-- `BACKOFF_SECONDS = 3`. -/
def BACKOFF_SECONDS : ℚ := 3

/-- `POST_INTERVAL = 0.7`. -/
def POST_INTERVAL : ℚ := 7 / 10

/-- The rate-limit phrase looked for in submission response bodies. -/
def tooFastPhrase : String := "请不要过快点击"

/-- The mutable scheduler state: the current monotonic clock value and the
process-wide `last_post_ts`. -/
structure SchedState where
  mono : ℚ
  lastPostTs : ℚ
deriving DecidableEq

/-- `gap = time.monotonic() - last_post_ts`. -/
def gapOf (st : SchedState) : ℚ := st.mono - st.lastPostTs

/-- The pre-submission sleep: `POST_MIN_GAP - gap` when `gap < POST_MIN_GAP`,
nothing otherwise. -/
def sleepAmt (st : SchedState) : ℚ :=
  if gapOf st < POST_MIN_GAP then POST_MIN_GAP - gapOf st else 0

/-- The monotonic instant at which the physical POST is issued: the current
instant plus the pacing sleep. -/
def postIssueTime (st : SchedState) : ℚ := st.mono + sleepAmt st

/-- The outcome of one `session.post` call: either it raised after `dur`
seconds, or it returned a response after `dur` seconds. -/
inductive Outcome where
  | raised (dur : ℚ)
  | ok (dur : ℚ) (resp : Resp)

/-- Observable events of the scheduler loop. -/
inductive Ev where
  | post (issuedAt : ℚ)
  | logged (status : Nat) (msg : String)
  | waitMsg (remain : ℚ)
  | failNote
deriving DecidableEq

/-- The message the script prints for a usable response: the concatenation
of the CJK runs of the body, or the first 180 characters when there are
none. -/
def msgOf (body : String) : String :=
  let cjk := String.mk (body.data.filter (fun c => 0x4E00 ≤ c.toNat && c.toNat ≤ 0x9FA5))
  if cjk.isEmpty then String.mk (body.data.take 180) else cjk

/-- One URL attempt of the inner loop of `grab_courses`: sleep out the
pacing gap, issue the POST, and on a returned response record
`last_post_ts`, classify bounce/rate-limit and log; on a raised exception
leave `last_post_ts` unchanged.  Returns the new state, whether `sent_ok`
was set, and the emitted events. -/
def attemptStep (env : DecodeEnv) (st : SchedState) (o : Outcome) :
    SchedState × Bool × List Ev :=
  let t0 := postIssueTime st
  match o with
  | Outcome.raised d => (⟨t0 + d, st.lastPostTs⟩, false, [Ev.post t0])
  | Outcome.ok d resp =>
    let t1 := t0 + d
    if is_login_bounce resp then (⟨t1, t1⟩, false, [Ev.post t0])
    else
      let body := (smart_read env resp).1
      let backoff :=
        if strContains body tooFastPhrase || (resp.status_code == 429 || resp.status_code == 503)
          then BACKOFF_SECONDS else 0
      (⟨t1 + backoff, t1⟩, true, [Ev.post t0, Ev.logged resp.status_code (msgOf body)])

/-- The `for url in post_urls` loop: attempt each URL in turn, stopping at
the first attempt that sets `sent_ok`. -/
def tryUrls (env : DecodeEnv) : SchedState → List Outcome → SchedState × Bool × List Ev
  | st, [] => (st, false, [])
  | st, o :: os =>
    let r1 := attemptStep env st o
    if r1.2.1 then (r1.1, true, r1.2.2)
    else
      let r2 := tryUrls env r1.1 os
      (r2.1, r2.2.1, r1.2.2 ++ r2.2.2)

/-- The `for data in forms` loop: one `tryUrls` pass per course, with a
failure notice when neither URL attempt produced a usable response. -/
def runCourses (env : DecodeEnv) : SchedState → List (List Outcome) → SchedState × List Ev
  | st, [] => (st, [])
  | st, oc :: rest =>
    let r1 := tryUrls env st oc
    let evs1 := if r1.2.1 then r1.2.2 else r1.2.2 ++ [Ev.failNote]
    let r2 := runCourses env r1.1 rest
    (r2.1, evs1 ++ r2.2)

/-- One iteration of the `while True` loop of `grab_courses`: if the wall
clock has reached the open time, run the submission pass, otherwise print
the waiting message; then sleep `POST_INTERVAL`. -/
def loopIter (env : DecodeEnv) (dtOpen now : ℚ) (st : SchedState)
    (outs : List (List Outcome)) : SchedState × List Ev :=
  let r := if dtOpen ≤ now then runCourses env st outs else (st, [Ev.waitMsg (dtOpen - now)])
  (⟨r.1.mono + POST_INTERVAL, r.1.lastPostTs⟩, r.2)

/-- A trivial decode environment, used to instantiate theorems at concrete
inputs. -/
def env0 : DecodeEnv :=
  ⟨fun _ => none, fun _ => none, fun _ _ => "", fun _ _ => none⟩

/-- A concrete response with no readable URL or body. -/
def resp0 : Resp := ⟨none, none, [], none, none, 200⟩

theorem startsWithChars_iff (needle : List Char) :
    ∀ hay : List Char, startsWithChars hay needle = true ↔ ∃ r, hay = needle ++ r := by
  induction needle with
  | nil =>
    intro hay
    cases hay <;> simp [startsWithChars]
  | cons b bs ih =>
    intro hay
    cases hay with
    | nil =>
      simp [startsWithChars]
    | cons a as =>
      simp only [startsWithChars, Bool.and_eq_true, beq_iff_eq, ih, List.cons_append]
      constructor
      · rintro ⟨hab, r, hr⟩
        exact ⟨r, by simp [hab, hr]⟩
      · rintro ⟨r, hr⟩
        injection hr with h1 h2
        exact ⟨h1, r, h2⟩

theorem occursIn_iff (needle : List Char) :
    ∀ hay : List Char, occursIn hay needle = true ↔ ∃ p q, hay = p ++ needle ++ q := by
  intro hay
  induction hay with
  | nil =>
    simp only [occursIn, List.isEmpty_iff]
    constructor
    · rintro rfl
      exact ⟨[], [], rfl⟩
    · rintro ⟨p, q, hpq⟩
      have hp := hpq.symm
      simp only [List.append_assoc, List.append_eq_nil] at hp
      exact hp.2.1.symm ▸ rfl
  | cons a rest ih =>
    simp only [occursIn, Bool.or_eq_true, startsWithChars_iff, ih]
    constructor
    · rintro (⟨r, hr⟩ | ⟨p, q, hpq⟩)
      · exact ⟨[], r, by simp [hr]⟩
      · exact ⟨a :: p, q, by simp [hpq]⟩
    · rintro ⟨p, q, hpq⟩
      cases p with
      | nil => exact Or.inl ⟨q, by simpa using hpq⟩
      | cons x p' =>
        simp only [List.cons_append] at hpq
        injection hpq with h1 h2
        exact Or.inr ⟨p', q, h2⟩

theorem strContains_iff (hay needle : String) :
    strContains hay needle = true ↔ ∃ p q, hay.data = p ++ needle.data ++ q :=
  occursIn_iff needle.data hay.data

theorem decodeLoop_snd_ne (env : DecodeEnv) (b : List Nat) :
    ∀ (l : List (Option String)) (s e : String),
      decodeLoop env b l = some (s, e) → e ≠ "" := by
  intro l
  induction l with
  | nil => intro s e h; simp [decodeLoop] at h
  | cons o rest ih =>
    intro s e h
    match o with
    | none => exact ih s e (by simpa [decodeLoop] using h)
    | some enc =>
      by_cases hEnc : enc = ""
      · exact ih s e (by simpa [decodeLoop, hEnc] using h)
      · simp only [decodeLoop, if_neg hEnc] at h
        cases hd : pyDecode env enc b with
        | none => rw [hd] at h; exact ih s e h
        | some s' =>
          rw [hd] at h
          cases h
          exact hEnc

/-- C1 (counterexample): on the specification's own example body the parser
does not produce the two claimed entries — the chunk before the first
`code:` has no name match, so name extraction stops immediately. -/
theorem catalog_example_ne_claimed :
    courseEntries exampleBody ≠ [(0, "1001", "Math"), (1, "1002", "Physics")] := by
  decide

/-- C1 (amended): for the catalog body
`"...id:1001,code:x name:'Math',id:1002,code:y name:'Physics',..."` the
parser extracts the ids `["1001", "1002"]` via the `id:` marker, but name
extraction — one name per `code:`-delimited chunk, stopping at the first
chunk with no name match — stops at the very first chunk (the text before
the first `code:`), so the name list is empty, the entry count
`min 2 0 = 0`, and no entries are produced. -/
theorem catalog_example_parse :
    idList exampleBody = ["1001", "1002"] ∧ nameList exampleBody = [] ∧
      entryCount exampleBody = 0 ∧ courseEntries exampleBody = [] := by
  decide

/-- C4: for every decompression/decoding oracle behaviour and every
response — any byte content, any combination of declared and apparent
encoding hints (absent, empty or naming an invalid codec) — `smart_read`
returns a string together with a non-empty encoding name; no branch can
fail. -/
theorem smart_read_total (env : DecodeEnv) (r : Resp) :
    ∃ s e, smart_read env r = (s, e) ∧ e ≠ "" := by
  cases h : decodeLoop env (maybe_decompress env.gz env.zl r.content)
      [r.encoding, r.apparent_encoding, some "utf-8", some "gb18030", some "gbk",
        some "gb2312", some "latin1"] with
  | none =>
    refine ⟨utf8DecodeIgnore (maybe_decompress env.gz env.zl r.content), "utf-8", ?_, by decide⟩
    simp [smart_read, h]
  | some p =>
    refine ⟨p.1, p.2, ?_, decodeLoop_snd_ne env _ _ p.1 p.2 (by simpa using h)⟩
    simp [smart_read, h]

/-- C5: `is_login_bounce` is true exactly when the body text (empty when
reading it raises) contains the authentication-wall phrase or the
lowercased final URL (empty when reading it raises) contains the
authentication-service marker; it is a total function, so failures are
never propagated. -/
theorem is_login_bounce_iff (r : Resp) :
    is_login_bounce r = true ↔
      (∃ p q, ((r.text).getD "").data = p ++ authPhrase.data ++ q) ∨
      (∃ p q, (lowerStr ((r.url).getD "")).data = p ++ authMarker.data ++ q) := by
  simp only [is_login_bounce, Bool.or_eq_true, strContains_iff]

/-- C7: the decompression step attempts gzip exactly on the gzip magic pair,
attempts zlib exactly on `0x78` followed by a known zlib second byte,
passes everything else through unchanged, and keeps the original bytes
whenever the attempted decompression fails. -/
theorem maybe_decompress_spec (gz zl : List Nat → Option (List Nat)) (b : List Nat) :
    ((b.get? 0 = some 0x1F ∧ b.get? 1 = some 0x8B) →
        maybe_decompress gz zl b = (gz b).getD b) ∧
    ((b.get? 0 = some 0x78 ∧
        (b.get? 1 = some 0x01 ∨ b.get? 1 = some 0x5E ∨ b.get? 1 = some 0x9C ∨
          b.get? 1 = some 0xDA)) →
        maybe_decompress gz zl b = (zl b).getD b) ∧
    (¬ (b.get? 0 = some 0x1F ∧ b.get? 1 = some 0x8B) →
      ¬ (b.get? 0 = some 0x78 ∧
          (b.get? 1 = some 0x01 ∨ b.get? 1 = some 0x5E ∨ b.get? 1 = some 0x9C ∨
            b.get? 1 = some 0xDA)) →
        maybe_decompress gz zl b = b) ∧
    ((b.get? 0 = some 0x1F ∧ b.get? 1 = some 0x8B) → gz b = none →
        maybe_decompress gz zl b = b) ∧
    ((b.get? 0 = some 0x78 ∧
        (b.get? 1 = some 0x01 ∨ b.get? 1 = some 0x5E ∨ b.get? 1 = some 0x9C ∨
          b.get? 1 = some 0xDA)) → zl b = none →
        maybe_decompress gz zl b = b) := by
  match b with
  | [] => simp [maybe_decompress]
  | [b0] => simp [maybe_decompress]
  | b0 :: b1 :: rest =>
    simp only [List.get?_cons_zero, List.get?_cons_succ, Option.some.injEq]
    refine ⟨?_, ?_, ?_, ?_, ?_⟩
    · rintro ⟨rfl, rfl⟩
      simp [maybe_decompress]
    · rintro ⟨rfl, h1⟩
      rcases h1 with rfl | rfl | rfl | rfl <;> simp [maybe_decompress]
    · intro h1 h2
      simp only [maybe_decompress]
      rw [if_neg, if_neg]
      · exact h2
      · exact h1
    · rintro ⟨rfl, rfl⟩ hg
      simp [maybe_decompress, hg]
    · rintro ⟨rfl, h1⟩ hz
      rcases h1 with rfl | rfl | rfl | rfl <;> simp [maybe_decompress, hz]

/-- C7 (witness): a byte pair carrying the gzip magic, with a failing
decompression oracle, keeps the original bytes. -/
theorem maybe_decompress_spec_witness :
    maybe_decompress (fun _ => none) (fun _ => none) [0x1F, 0x8B] = [0x1F, 0x8B] :=
  ((maybe_decompress_spec (fun _ => none) (fun _ => none) [0x1F, 0x8B]).1
    ⟨rfl, rfl⟩).trans rfl

/-- C8: the submission form is a pure function of the course identifier —
for `"500"` it is exactly the field set
`{optype: "true", operator0: "500:true:0", lesson0: "500"}`, and building
the form for the same identifier any number of times yields identical
forms. -/
theorem makeForm_deterministic :
    makeForm "500" = ⟨"true", "500:true:0", "500"⟩ ∧
      ∀ (cid : String) (n : Nat),
        formsFor (List.replicate n cid) = List.replicate n (makeForm cid) :=
  ⟨rfl, fun _ _ => List.map_replicate⟩

/-- C2 (counterexample): an attempt whose POST raises does not update the
last-submission instant.  Starting from monotonic instant 10 with
`last_post_ts = 0`, a raising attempt completes at instant 11, yet
`last_post_ts` is still 0, not 11. -/
theorem raised_attempt_keeps_last_post_ts :
    (attemptStep env0 ⟨10, 0⟩ (Outcome.raised 1)).1.mono = 11 ∧
      (attemptStep env0 ⟨10, 0⟩ (Outcome.raised 1)).1.lastPostTs = 0 ∧ (0 : ℚ) ≠ 11 := by
  refine ⟨?_, rfl, by norm_num⟩
  show postIssueTime ⟨10, 0⟩ + 1 = 11
  rw [postIssueTime, sleepAmt]
  rw [if_neg (by rw [gapOf]; norm_num [POST_MIN_GAP])]
  norm_num

/-- C2 (amended): the last-submission instant is updated to the attempt's
completion time exactly when the POST call returns — normally or as a
bounce alike — while an attempt whose POST raises leaves the
last-submission instant unchanged, so raising attempts do not advance the
pacing clock. -/
theorem last_post_ts_update (env : DecodeEnv) (st : SchedState) (o : Outcome) :
    (∀ d resp, o = Outcome.ok d resp →
        (attemptStep env st o).1.lastPostTs = postIssueTime st + d) ∧
    (∀ d, o = Outcome.raised d →
        (attemptStep env st o).1.lastPostTs = st.lastPostTs) := by
  constructor
  · rintro d resp rfl
    by_cases h : is_login_bounce resp <;> simp [attemptStep, h]
  · rintro d rfl
    rfl

/-- C2 (amended, witness): a concrete returned attempt records its
completion instant. -/
theorem last_post_ts_update_witness :
    (attemptStep env0 ⟨0, 0⟩ (Outcome.ok 1 resp0)).1.lastPostTs = postIssueTime ⟨0, 0⟩ + 1 :=
  (last_post_ts_update env0 ⟨0, 0⟩ (Outcome.ok 1 resp0)).1 1 resp0 rfl

/-- C3: before every physical submission the scheduler sleeps exactly the
remaining difference whenever the elapsed gap is below `POST_MIN_GAP`
(and nothing otherwise), so every network call is issued no earlier than
the last-submission instant plus the gap; in particular two back-to-back
submissions with zero elapsed time are separated by exactly the gap, and
every attempt — any course, any URL variant — issues its POST at the
globally paced instant. -/
theorem pacing_gap (st : SchedState) :
    postIssueTime st = st.mono + sleepAmt st ∧
    (gapOf st < POST_MIN_GAP → sleepAmt st = POST_MIN_GAP - gapOf st) ∧
    (POST_MIN_GAP ≤ gapOf st → sleepAmt st = 0) ∧
    (st.lastPostTs ≤ st.mono → st.lastPostTs + POST_MIN_GAP ≤ postIssueTime st) ∧
    (st.mono = st.lastPostTs → postIssueTime st = st.lastPostTs + POST_MIN_GAP) ∧
    (∀ (env : DecodeEnv) (o : Outcome), ∃ evs,
        (attemptStep env st o).2.2 = Ev.post (postIssueTime st) :: evs) := by
  refine ⟨rfl, ?_, ?_, ?_, ?_, ?_⟩
  · intro h
    rw [sleepAmt, if_pos h]
  · intro h
    rw [sleepAmt, if_neg (not_lt.mpr h)]
  · intro h
    rw [postIssueTime, sleepAmt, gapOf]
    split_ifs with hc
    · linarith
    · rw [not_lt] at hc
      linarith
  · intro h
    rw [postIssueTime, sleepAmt, gapOf, h]
    rw [if_pos (by norm_num [POST_MIN_GAP])]
    ring
  · intro env o
    cases o with
    | raised d => exact ⟨[], rfl⟩
    | ok d resp =>
      by_cases h : is_login_bounce resp
      · exact ⟨[], by simp [attemptStep, h]⟩
      · exact ⟨[Ev.logged resp.status_code (msgOf (smart_read env resp).1)],
          by simp [attemptStep, h]⟩

/-- C3 (witness): with zero elapsed time since the last submission, the
next POST is issued exactly `POST_MIN_GAP` later. -/
theorem pacing_gap_witness : postIssueTime ⟨0, 0⟩ = (0 : ℚ) + POST_MIN_GAP :=
  (pacing_gap ⟨0, 0⟩).2.2.2.2.1 rfl

/-- C6: the selection mapper skips a non-numeric token, resolves a numeric
token that is a valid position among the displayed entries to that entry's
course id, otherwise accepts a token literally equal to a known course id,
and otherwise skips it; on entries `["1001", "1002", "1003"]` the tokens
`["1", "1002", "9"]` yield exactly `["1002", "1002"]` (index, literal id,
skipped), mirroring token order. -/
theorem selection_mapper_spec :
    (∀ (t : String) (ts ids : List String) (n : Nat), pyIsDigit t = false →
        mapSelections (t :: ts) ids n = mapSelections ts ids n) ∧
    (∀ (t : String) (ts ids : List String) (n : Nat), pyIsDigit t = true →
        digitsToNat t < n →
        mapSelections (t :: ts) ids n = ids.getD (digitsToNat t) "" :: mapSelections ts ids n) ∧
    (∀ (t : String) (ts ids : List String) (n : Nat), pyIsDigit t = true →
        ¬ digitsToNat t < n → ids.contains t = true →
        mapSelections (t :: ts) ids n = t :: mapSelections ts ids n) ∧
    (∀ (t : String) (ts ids : List String) (n : Nat), pyIsDigit t = true →
        ¬ digitsToNat t < n → ids.contains t = false →
        mapSelections (t :: ts) ids n = mapSelections ts ids n) ∧
    mapSelections ["1", "1002", "9"] ["1001", "1002", "1003"] 3 = ["1002", "1002"] := by
  refine ⟨?_, ?_, ?_, ?_, by decide⟩
  · intro t ts ids n h1
    simp [mapSelections, h1]
  · intro t ts ids n h1 h2
    simp [mapSelections, h1, h2]
  · intro t ts ids n h1 h2 h3
    have h3m : t ∈ ids := by simpa using h3
    simp [mapSelections, h1, h2, h3m]
  · intro t ts ids n h1 h2 h3
    have h3m : t ∉ ids := by simpa using h3
    simp [mapSelections, h1, h2, h3m]

/-- C6 (witness): one concrete token of each kind — non-numeric, in-range
index, literal id, unknown. -/
theorem selection_mapper_spec_witness :
    mapSelections ["x"] ["1001"] 1 = [] ∧
      mapSelections ["0"] ["1001"] 1 = ["1001"] ∧
      mapSelections ["1001"] ["1001"] 0 = ["1001"] ∧
      mapSelections ["7"] ["1001"] 0 = [] := by
  refine ⟨?_, ?_, ?_, ?_⟩
  · exact (selection_mapper_spec.1 "x" [] ["1001"] 1 (by decide)).trans rfl
  · exact (selection_mapper_spec.2.1 "0" [] ["1001"] 1 (by decide) (by decide)).trans (by decide)
  · exact (selection_mapper_spec.2.2.1 "1001" [] ["1001"] 0 (by decide) (by decide)
      (by decide)).trans rfl
  · exact (selection_mapper_spec.2.2.2.1 "7" [] ["1001"] 0 (by decide) (by decide)
      (by decide)).trans rfl

/-- C9: while the wall clock is strictly before the open time, a loop
iteration emits exactly the waiting message with the remaining time and no
POST event; conversely any POST event emitted by an iteration implies the
wall clock has reached or passed the open time. -/
theorem waiting_no_posts (env : DecodeEnv) (dtOpen now : ℚ) (st : SchedState)
    (outs : List (List Outcome)) :
    (now < dtOpen → (loopIter env dtOpen now st outs).2 = [Ev.waitMsg (dtOpen - now)]) ∧
    (∀ t, Ev.post t ∈ (loopIter env dtOpen now st outs).2 → dtOpen ≤ now) := by
  by_cases h : dtOpen ≤ now
  · exact ⟨fun hlt => absurd h (not_le.mpr hlt), fun t _ => h⟩
  · constructor
    · intro _
      simp [loopIter, h]
    · intro t ht
      simp [loopIter, h] at ht

/-- C9 (witness): with open time 1 and wall clock 0, the iteration emits
only the waiting message. -/
theorem waiting_no_posts_witness :
    (loopIter env0 1 0 ⟨0, 0⟩ []).2 = [Ev.waitMsg (1 - 0)] :=
  (waiting_no_posts env0 1 0 ⟨0, 0⟩ []).1 (by norm_num)

/-- C10: a numeric token whose value is not a valid position among the
`min(|ids|, |names|)` displayed entries is still accepted whenever it
literally equals any parsed course id — membership is checked against the
full id list, including ids at or beyond the name-truncated entry count. -/
theorem literal_id_uses_full_list (ids names : List String) (t : String)
    (h1 : pyIsDigit t = true) (h2 : ¬ digitsToNat t < min ids.length names.length)
    (h3 : ids.contains t = true) :
    mapSelections [t] ids (min ids.length names.length) = [t] := by
  have h3m : t ∈ ids := by simpa using h3
  simp [mapSelections, h1, h2, h3m]

/-- C10 (witness): id `"1002"` sits at index 1 while only one entry is
displayed (one parsed name), yet the token `"1002"` is accepted. -/
theorem literal_id_uses_full_list_witness :
    mapSelections ["1002"] ["1001", "1002"]
        (min (["1001", "1002"] : List String).length (["A"] : List String).length) =
      ["1002"] :=
  literal_id_uses_full_list ["1001", "1002"] ["A"] "1002" (by decide) (by decide) (by decide)
